import Mathlib

/-!
Verification development for the go-historical-data ingestion pipeline.

The definitions below are a shallow embedding of the CSV ingestion core:
the field parsers and row decoder of pkg/csvparser (parseDate, parseFloat,
parseUint, ParseHeader, ParseRow) and the batch-ingestion orchestrator of
internal/service/historical_service.go (validateCSVRow, UploadCSV).

Modelling conventions:
- Go float64 prices are modelled as exact decimal values (an integer
  mantissa over a power of ten); the claims under study concern control
  flow and ordering comparisons, not IEEE rounding.
- Go time.Time dates (parsed dates carry no time of day) are modelled as
  calendar dates; time.Now() is passed in as an explicit today parameter,
  and row.Date.After(time.Now()) for a midnight date is equivalent to the
  calendar comparison today < date.
- The byte stream consumed through Parser.ParseRow is modelled as a finite
  list of per-call outcomes (a decoded row, a field parse error, or a
  non-EOF reader error), terminated by the implicit end of the list (EOF).
- The repository BulkCreate call is modelled as an oracle indexed by call
  number returning none on success or some message on failure.
-/

/-- ASCII whitespace test, modelling unicode.IsSpace for the ASCII range
used by strings.TrimSpace. -/
def isSpaceChar (c : Char) : Bool :=
  c = ' ' || c = '\t' || c = '\n' || c = '\r' || c = '\x0b' || c = '\x0c'

/-- Model of strings.TrimSpace: drop leading and trailing whitespace. -/
def goTrim (s : String) : String :=
  ⟨((s.data.dropWhile isSpaceChar).reverse.dropWhile isSpaceChar).reverse⟩

/-- Model of strings.ReplaceAll with a one-character pattern and an empty
replacement: every occurrence of the character is removed. -/
def removeAll (c : Char) (s : String) : String :=
  ⟨s.data.filter (fun d => d ≠ c)⟩

/-- ASCII upper-casing of one character. -/
def toUpperChar (c : Char) : Char :=
  if 'a' ≤ c && c ≤ 'z' then Char.ofNat (c.toNat - 32) else c

/-- ASCII lower-casing of one character. -/
def toLowerChar (c : Char) : Char :=
  if 'A' ≤ c && c ≤ 'Z' then Char.ofNat (c.toNat + 32) else c

/-- Model of strings.ToUpper restricted to ASCII. -/
def upperAscii (s : String) : String := ⟨s.data.map toUpperChar⟩

/-- Model of strings.ToLower restricted to ASCII. -/
def lowerAscii (s : String) : String := ⟨s.data.map toLowerChar⟩

/-- A calendar date (year, month, day), the payload of a parsed Go
time.Time with zero time of day. -/
structure Date where
  year : ℕ
  month : ℕ
  day : ℕ
deriving DecidableEq

/-- Lexicographic strict order on dates, modelling time.Time comparison of
midnight instants. -/
def dateLt (a b : Date) : Bool :=
  a.year < b.year ||
    (a.year = b.year && (a.month < b.month ||
      (a.month = b.month && a.day < b.day)))

/-- Model of row.Date.After(time.Now()): for a midnight date this is the
calendar comparison today < date. -/
def dateAfter (d today : Date) : Bool := dateLt today d

/-- Two-digit zero padding, as in Go layout fields 01 and 02. -/
def pad2 (n : ℕ) : String := if n < 10 then "0" ++ toString n else toString n

/-- Four-digit zero padding, as in Go layout field 2006. -/
def pad4 (n : ℕ) : String :=
  if n < 10 then "000" ++ toString n
  else if n < 100 then "00" ++ toString n
  else if n < 1000 then "0" ++ toString n
  else toString n

/-- Rendering of date.Format with layout 2006-01-02. -/
def dateFmt (d : Date) : String :=
  pad4 d.year ++ "-" ++ pad2 d.month ++ "-" ++ pad2 d.day

/-- Gregorian leap-year rule, as in Go package time. -/
def isLeapYear (y : ℕ) : Bool :=
  y % 4 = 0 && (y % 100 ≠ 0 || y % 400 = 0)

/-- Number of days in a month, as validated by Go time.Parse. -/
def daysInMonth (y m : ℕ) : ℕ :=
  if m = 2 then (if isLeapYear y then 29 else 28)
  else if m = 4 || m = 6 || m = 9 || m = 11 then 30
  else 31

/-- Range validation performed by Go time.Parse on the parsed fields:
month in 1..12 and day in 1..daysInMonth. -/
def mkDate (y m d : ℕ) : Option Date :=
  if 1 ≤ m && m ≤ 12 && 1 ≤ d && d ≤ daysInMonth y m then some ⟨y, m, d⟩
  else none

/-- Numeric value of an ASCII digit, none for other characters. -/
def readDigit (c : Char) : Option ℕ :=
  if c.isDigit then some (c.toNat - 48) else none

/-- Read exactly two digits, as a Go layout field 01 or 02 requires. -/
def read2 : List Char → Option (ℕ × List Char)
  | a :: b :: rest => do
      let x ← readDigit a
      let y ← readDigit b
      pure (10 * x + y, rest)
  | _ => none

/-- Read exactly four digits, as the Go layout field 2006 requires. -/
def read4 : List Char → Option (ℕ × List Char)
  | a :: b :: c :: d :: rest => do
      let x ← readDigit a
      let y ← readDigit b
      let z ← readDigit c
      let w ← readDigit d
      pure (1000 * x + 100 * y + 10 * z + w, rest)
  | _ => none

/-- Consume one expected separator character. -/
def readSep (sep : Char) : List Char → Option (List Char)
  | c :: rest => if c = sep then some rest else none
  | _ => none

/-- The five date layouts of Parser.supportedFormats, in source order:
2006-01-02, 01/02/2006, 02-01-2006, 2006/01/02, 01-02-2006. -/
inductive DateFormat where
  | ymdDash
  | mdySlash
  | dmyDash
  | ymdSlash
  | mdyDash
deriving DecidableEq

/-- The Go reference-layout string of each format, as stored in
Parser.supportedFormats. -/
def layoutString : DateFormat → String
  | .ymdDash => "2006-01-02"
  | .mdySlash => "01/02/2006"
  | .dmyDash => "02-01-2006"
  | .ymdSlash => "2006/01/02"
  | .mdyDash => "01-02-2006"

/-- Model of time.Parse for one of the five supported layouts: fixed-width
numeric fields, exact separators, the whole input consumed, and range
validation of month and day. -/
def parseWithFormat (f : DateFormat) (s : String) : Option Date :=
  let cs := s.data
  match f with
  | .ymdDash => do
      let (y, r1) ← read4 cs
      let r2 ← readSep '-' r1
      let (m, r3) ← read2 r2
      let r4 ← readSep '-' r3
      let (d, r5) ← read2 r4
      if r5 = [] then mkDate y m d else none
  | .mdySlash => do
      let (m, r1) ← read2 cs
      let r2 ← readSep '/' r1
      let (d, r3) ← read2 r2
      let r4 ← readSep '/' r3
      let (y, r5) ← read4 r4
      if r5 = [] then mkDate y m d else none
  | .dmyDash => do
      let (d, r1) ← read2 cs
      let r2 ← readSep '-' r1
      let (m, r3) ← read2 r2
      let r4 ← readSep '-' r3
      let (y, r5) ← read4 r4
      if r5 = [] then mkDate y m d else none
  | .ymdSlash => do
      let (y, r1) ← read4 cs
      let r2 ← readSep '/' r1
      let (m, r3) ← read2 r2
      let r4 ← readSep '/' r3
      let (d, r5) ← read2 r4
      if r5 = [] then mkDate y m d else none
  | .mdyDash => do
      let (m, r1) ← read2 cs
      let r2 ← readSep '-' r1
      let (d, r3) ← read2 r2
      let r4 ← readSep '-' r3
      let (y, r5) ← read4 r4
      if r5 = [] then mkDate y m d else none

/-- The ordered format list built in NewParser. -/
def supportedFormats : List DateFormat :=
  [.ymdDash, .mdySlash, .dmyDash, .ymdSlash, .mdyDash]

/-- Model of Parser.parseDate: try the supported formats in order and
return the first successful parse. -/
def parseDate (s : String) : Option Date :=
  supportedFormats.findSome? (fun f => parseWithFormat f s)

/-- Read a maximal run of ASCII digits, returning the accumulated value,
the number of digits read, and the rest of the input. -/
def readDigitsAux : List Char → ℕ → ℕ → ℕ × ℕ × List Char
  | c :: rest, acc, n =>
      if c.isDigit then readDigitsAux rest (10 * acc + (c.toNat - 48)) (n + 1)
      else (acc, n, c :: rest)
  | [], acc, n => (acc, n, [])

/-- An exact decimal value: the number num / 10 ^ exp. This models a
parsed float64 price exactly (IEEE rounding to the nearest float64 is not
modelled; the claims under study only compare and store these values). -/
structure Dec where
  num : ℤ
  exp : ℕ
deriving DecidableEq

/-- Value order on decimals: a < b as numbers. -/
def decLt (a b : Dec) : Bool :=
  decide (a.num * (10 : ℤ) ^ b.exp < b.num * (10 : ℤ) ^ a.exp)

/-- Value test a < 0. -/
def decNeg (a : Dec) : Bool := decide (a.num < 0)

/-- Value test a ≤ 0. -/
def decNonpos (a : Dec) : Bool := decide (a.num ≤ 0)

/-- Model of strconv.ParseFloat(s, 64) on decimal inputs, returning the
exact decimal value. An optional sign, an integer part, an optional
fraction and an optional exponent are recognised, with at least one
mantissa digit required and the whole input consumed. Hexadecimal floats,
inf and nan spellings, underscore digit separators and rounding to the
nearest float64 are outside the behaviour the claims exercise and are not
modelled. -/
def goParseFloat (s : String) : Option Dec :=
  let cs := s.data
  let signed : ℤ × List Char :=
    match cs with
    | '+' :: r => (1, r)
    | '-' :: r => (-1, r)
    | r => (1, r)
  let sign := signed.1
  let (ip, nInt, cs2) := readDigitsAux signed.2 0 0
  let fracRead : ℕ × ℕ × List Char :=
    match cs2 with
    | '.' :: r => readDigitsAux r 0 0
    | r => (0, 0, r)
  let (fp, nFrac, cs3) := fracRead
  if nInt + nFrac = 0 then none
  else
    let mant : ℤ := sign * ((ip : ℤ) * (10 : ℤ) ^ nFrac + (fp : ℤ))
    match cs3 with
    | [] => some ⟨mant, nFrac⟩
    | e :: r =>
        if e = 'e' || e = 'E' then
          let esigned : Bool × List Char :=
            match r with
            | '+' :: r2 => (false, r2)
            | '-' :: r2 => (true, r2)
            | r2 => (false, r2)
          let (ev, ne, r2) := readDigitsAux esigned.2 0 0
          if ne = 0 || r2 ≠ [] then none
          else if esigned.1 then some ⟨mant, nFrac + ev⟩
          else some ⟨mant * (10 : ℤ) ^ ev, nFrac⟩
        else none

/-- Model of strconv.ParseUint(s, 10, 64): a nonempty run of decimal
digits, no sign, value below 2 ^ 64. -/
def goParseUint (s : String) : Option ℕ :=
  let cs := s.data
  if cs.isEmpty then none
  else if cs.all Char.isDigit then
    let v := cs.foldl (fun acc c => 10 * acc + (c.toNat - 48)) 0
    if v < 2 ^ 64 then some v else none
  else none

/-- The numeric stage of Parser.parseFloat after noise stripping: parse
the cleaned string and reject negative values. -/
def parseFloatCore (u : String) : Option Dec :=
  match goParseFloat u with
  | none => none
  | some v => if decNeg v then none else some v

/-- Model of Parser.parseFloat: trim whitespace, reject empty input,
remove every comma and every dollar sign, parse, reject negatives. -/
def parseFloat (s : String) : Option Dec :=
  let t := goTrim s
  if t = "" then none
  else parseFloatCore (removeAll '$' (removeAll ',' t))

/-- Model of Parser.parseUint: trim whitespace, empty input means zero,
remove every comma, parse as unsigned decimal. -/
def parseUint (s : String) : Option ℕ :=
  let t := goTrim s
  if t = "" then some 0
  else goParseUint (removeAll ',' t)

example : parseDate "2024-01-02" = some ⟨2024, 1, 2⟩ := by decide
example : parseDate "03-04-2024" = some ⟨2024, 4, 3⟩ := by decide
example : parseWithFormat .mdyDash "03-04-2024" = some ⟨2024, 3, 4⟩ := by decide
example : parseDate "2023-02-29" = none := by decide
example : parseFloat " $1,234.5 " = some ⟨12345, 1⟩ := by decide
example : parseFloat "1,2$3" = some ⟨123, 0⟩ := by decide
example : parseFloat "-1" = none := by decide
example : parseFloat "2.5e2" = some ⟨2500, 1⟩ := by decide
example : parseUint "" = some 0 := by decide
example : parseUint "1,000" = some 1000 := by decide

/-- Normalisation applied to each header cell in ParseHeader: trim
whitespace, then lower-case. -/
def normalizeName (s : String) : String := lowerAscii (goTrim s)

/-- The required header names checked by ParseHeader, in source order. -/
def requiredHeaders : List String :=
  ["symbol", "date", "open", "high", "low", "close", "volume"]

/-- Model of Parser.ParseHeader on the cells of the first line: normalise
every cell, then fail on the first required name that is absent. The
returned value is the normalised header list. -/
def ParseHeader (cells : List String) : Except String (List String) :=
  let normalized := cells.map normalizeName
  match requiredHeaders.find? (fun r => !(normalized.contains r)) with
  | some missing => .error ("missing required header: " ++ missing)
  | none => .ok normalized

/-- A decoded CSV row, with the field names of the Go struct
HistoricalDataRow. -/
structure HistoricalDataRow where
  Symbol : String
  RowDate : Date
  Open : Dec
  High : Dec
  Low : Dec
  Close : Dec
  Volume : ℕ
deriving DecidableEq

/-- The payload of a csvparser.ParseError. -/
structure ParseErr where
  line : ℕ
  field : String
  value : String
  message : String
deriving DecidableEq

/-- The date error message of ParseRow, enumerating the supported layout
strings in order. -/
def dateFormatsMessage : String :=
  "invalid date format, supported formats: " ++
    String.intercalate ", " (supportedFormats.map layoutString)

/-- Model of the field-decoding part of Parser.ParseRow on a successfully
read record: each of the seven fields is decoded in source order, short
circuiting on the first failure. The header index map is a function from
the normalised name to the column position, and line is the value of the
parser line counter after its increment for this row. -/
def ParseRow (hidx : String → ℕ) (record : List String) (line : ℕ) :
    Except ParseErr HistoricalDataRow :=
  let rawSymbol := record.getD (hidx "symbol") ""
  let symbol := goTrim (upperAscii rawSymbol)
  if symbol = "" then
    .error ⟨line, "symbol", rawSymbol, "symbol cannot be empty"⟩
  else
    let dateStr := goTrim (record.getD (hidx "date") "")
    match parseDate dateStr with
    | none => .error ⟨line, "date", dateStr, dateFormatsMessage⟩
    | some date =>
      let rawOpen := record.getD (hidx "open") ""
      match parseFloat rawOpen with
      | none => .error ⟨line, "open", rawOpen, "must be a valid number"⟩
      | some openV =>
        let rawHigh := record.getD (hidx "high") ""
        match parseFloat rawHigh with
        | none => .error ⟨line, "high", rawHigh, "must be a valid number"⟩
        | some highV =>
          let rawLow := record.getD (hidx "low") ""
          match parseFloat rawLow with
          | none => .error ⟨line, "low", rawLow, "must be a valid number"⟩
          | some lowV =>
            let rawClose := record.getD (hidx "close") ""
            match parseFloat rawClose with
            | none => .error ⟨line, "close", rawClose, "must be a valid number"⟩
            | some closeV =>
              let rawVolume := record.getD (hidx "volume") ""
              match parseUint rawVolume with
              | none =>
                  .error ⟨line, "volume", rawVolume,
                    "must be a valid non-negative integer"⟩
              | some vol =>
                  .ok ⟨symbol, date, openV, highV, lowV, closeV, vol⟩

/-- Rendering of a price value inside a validator message. The Go code
formats the float64 with two decimal places; the exact decimal value is
rendered here instead, which is immaterial to the claims under study. -/
def decStr (d : Dec) : String :=
  if d.exp = 0 then toString d.num
  else toString d.num ++ "e-" ++ toString d.exp

/-- Message of the first validator check. -/
def highLowMsg (row : HistoricalDataRow) : String :=
  "high price (" ++ decStr row.High ++
    ") must be greater than or equal to low price (" ++ decStr row.Low ++ ")"

/-- Message of the second validator check. -/
def openRangeMsg (row : HistoricalDataRow) : String :=
  "open price (" ++ decStr row.Open ++ ") must be between low (" ++
    decStr row.Low ++ ") and high (" ++ decStr row.High ++ ")"

/-- Message of the third validator check. -/
def closeRangeMsg (row : HistoricalDataRow) : String :=
  "close price (" ++ decStr row.Close ++ ") must be between low (" ++
    decStr row.Low ++ ") and high (" ++ decStr row.High ++ ")"

/-- Message of the future-date validator check. -/
def futureDateMsg (row : HistoricalDataRow) : String :=
  "date (" ++ dateFmt row.RowDate ++ ") cannot be in the future"

/-- Message of the positivity validator check. -/
def positiveMsg : String := "all prices must be positive"

/-- Model of historicalService.validateCSVRow: the checks in source
order, returning the message of the first violated check. The time.Now()
observation is the explicit today parameter. -/
def validateCSVRow (today : Date) (row : HistoricalDataRow) : Option String :=
  if decLt row.High row.Low then some (highLowMsg row)
  else if decLt row.Open row.Low || decLt row.High row.Open then
    some (openRangeMsg row)
  else if decLt row.Close row.Low || decLt row.High row.Close then
    some (closeRangeMsg row)
  else if dateAfter row.RowDate today then some (futureDateMsg row)
  else if decNonpos row.Open || decNonpos row.High || decNonpos row.Low ||
      decNonpos row.Close then some positiveMsg
  else none

/-- Modelled from the spec: the order of validator checks stated in
section 4.4 and section 3, where strict positivity is listed before the
future-date rule. This definition exists only to be compared with
validateCSVRow, which is translated from the source. -/
def validateSpecOrder (today : Date) (row : HistoricalDataRow) : Option String :=
  if decLt row.High row.Low then some (highLowMsg row)
  else if decLt row.Open row.Low || decLt row.High row.Open then
    some (openRangeMsg row)
  else if decLt row.Close row.Low || decLt row.High row.Close then
    some (closeRangeMsg row)
  else if decNonpos row.Open || decNonpos row.High || decNonpos row.Low ||
      decNonpos row.Close then some positiveMsg
  else if dateAfter row.RowDate today then some (futureDateMsg row)
  else none

/-- The fixed batch size constant of UploadCSV. -/
def batchSize : ℕ := 1000

/-- The error-list cap applied before the report is returned. -/
def maxErrors : ℕ := 100

/-- One outcome of a Parser.ParseRow call, as observed by UploadCSV. An
ok event is a decoded row (the parser line counter was incremented), a
parseErr event is a field-level ParseError rendered to its message (the
line counter was incremented before the field decoding failed), and a
readErr event is a non-EOF error of the underlying csv reader (no line
increment). End of stream is the end of the event list. -/
inductive RowEvent where
  | ok (r : HistoricalDataRow)
  | parseErr (msg : String)
  | readErr (msg : String)
deriving DecidableEq

/-- The mutable state of the UploadCSV loop, together with the trace of
batches passed to the repository (calls) and the BulkCreate call counter
used to index the upsert oracle (callIdx). -/
structure LoopState where
  totalRows : ℕ
  successCount : ℕ
  failedCount : ℕ
  errors : List String
  batch : List HistoricalDataRow
  calls : List (List HistoricalDataRow)
  callIdx : ℕ
  line : ℕ
deriving DecidableEq

/-- The loop state as UploadCSV enters its loop: all counters zero and
the line counter at 1 (the header line). -/
def initState : LoopState := ⟨0, 0, 0, [], [], [], 0, 1⟩

/-- One BulkCreate flush. The oracle result res is none on success and
some message on failure. On failure one synthetic error entry is
appended (with the final-batch label when this is the final flush) and
every row of the batch is counted as failed; on success every row is
counted as successful. The pending batch is cleared and the call is
recorded in either case. -/
def applyFlush (res : Option String) (isFinal : Bool) (st : LoopState) :
    LoopState :=
  match res with
  | some e =>
      { st with
        errors := st.errors ++
          [(if isFinal then "final batch insert error: "
            else "batch insert error: ") ++ e],
        failedCount := st.failedCount + st.batch.length,
        batch := [],
        calls := st.calls ++ [st.batch],
        callIdx := st.callIdx + 1 }
  | none =>
      { st with
        successCount := st.successCount + st.batch.length,
        batch := [],
        calls := st.calls ++ [st.batch],
        callIdx := st.callIdx + 1 }

/-- One iteration of the UploadCSV loop on one ParseRow outcome. A non-EOF
error is collected into the error list and counted as failed, and the
loop continues. A decoded row is counted in totalRows, then validated;
a validation failure is collected with a line annotation, and a valid
row is appended to the pending batch, which is flushed through the
upsert oracle as soon as it reaches batchSize. -/
def stepEvent (upsert : ℕ → Option String) (today : Date)
    (st : LoopState) (ev : RowEvent) : LoopState :=
  match ev with
  | .readErr m =>
      { st with errors := st.errors ++ [m],
                failedCount := st.failedCount + 1 }
  | .parseErr m =>
      { st with errors := st.errors ++ [m],
                failedCount := st.failedCount + 1,
                line := st.line + 1 }
  | .ok r =>
      let st1 := { st with line := st.line + 1, totalRows := st.totalRows + 1 }
      match validateCSVRow today r with
      | some msg =>
          { st1 with
            errors := st1.errors ++
              ["line " ++ toString st1.line ++ ": " ++ msg],
            failedCount := st1.failedCount + 1 }
      | none =>
          let st2 := { st1 with batch := st1.batch ++ [r] }
          if batchSize ≤ st2.batch.length then
            applyFlush (upsert st2.callIdx) false st2
          else st2

/-- The UploadCSV loop run over the whole event stream. -/
def runLoop (upsert : ℕ → Option String) (today : Date)
    (evs : List RowEvent) : LoopState :=
  evs.foldl (stepEvent upsert today) initState

/-- The state after the loop and the final flush of a nonempty pending
batch. -/
def uploadFinalState (upsert : ℕ → Option String) (today : Date)
    (evs : List RowEvent) : LoopState :=
  let st0 := runLoop upsert today evs
  if st0.batch.isEmpty then st0
  else applyFlush (upsert st0.callIdx) true st0

/-- The error-list cap of UploadCSV: more than maxErrors entries are
truncated to the first maxErrors plus one synthetic summary entry. -/
def capErrors (errs : List String) : List String :=
  if maxErrors < errs.length then
    errs.take maxErrors ++
      ["... and " ++ toString (errs.length - maxErrors) ++ " more errors"]
  else errs

/-- The summary message of the report. -/
def mkMessage (failedCount : ℕ) : String :=
  if 0 < failedCount then
    "CSV file processed with " ++ toString failedCount ++ " errors"
  else "CSV file processed successfully"

/-- The response.CSVUploadResponse struct returned by UploadCSV. -/
structure CSVUploadResponse where
  totalRows : ℕ
  successCount : ℕ
  failedCount : ℕ
  processedBytes : ℤ
  errors : List String
  message : String
deriving DecidableEq

/-- Assembly of the final report from the terminal loop state. -/
def mkReport (st : LoopState) (fileSize : ℤ) : CSVUploadResponse :=
  ⟨st.totalRows, st.successCount, st.failedCount, fileSize,
    capErrors st.errors, mkMessage st.failedCount⟩

/-- The observable outcome of one UploadCSV call: either a fatal header
error (fatal set, no report) or a report, together with the trace of
in-loop BulkCreate calls and the final-flush call if one happened. -/
structure UploadOutcome where
  fatal : Option String
  report : Option CSVUploadResponse
  loopCalls : List (List HistoricalDataRow)
  finalCall : Option (List HistoricalDataRow)
deriving DecidableEq

/-- Model of historicalService.UploadCSV. The header cells are those of
the first line of the stream; the events are the successive ParseRow
outcomes; fileSize is echoed into the report; upsert is the BulkCreate
oracle indexed by call number. -/
def UploadCSV (upsert : ℕ → Option String) (today : Date)
    (headerCells : List String) (events : List RowEvent)
    (fileSize : ℤ) : UploadOutcome :=
  match ParseHeader headerCells with
  | .error e => ⟨some ("invalid CSV header: " ++ e), none, [], none⟩
  | .ok _ =>
      let st0 := runLoop upsert today events
      ⟨none, some (mkReport (uploadFinalState upsert today events) fileSize),
        st0.calls,
        if st0.batch.isEmpty then none else some st0.batch⟩

/-- The reference header row, in canonical order. -/
def stdHeader : List String :=
  ["symbol", "date", "open", "high", "low", "close", "volume"]

/-- A fixed observation of time.Now() used by concrete witnesses. -/
def sampleToday : Date := ⟨2025, 10, 11⟩

/-- A row that decodes and validates successfully. -/
def sampleRow : HistoricalDataRow :=
  ⟨"AAPL", ⟨2024, 1, 2⟩, ⟨100, 0⟩, ⟨110, 0⟩, ⟨90, 0⟩, ⟨105, 0⟩, 1000⟩

example : validateCSVRow sampleToday sampleRow = none := by decide
example : ParseHeader stdHeader = Except.ok stdHeader := rfl

/-- The flush does not touch the tokenized-row counter. -/
theorem applyFlush_totalRows (res : Option String) (isFinal : Bool)
    (st : LoopState) : (applyFlush res isFinal st).totalRows = st.totalRows := by
  cases res <;> rfl

/-- The flush moves the whole pending batch into exactly one of the two
outcome counters. -/
theorem applyFlush_counts (res : Option String) (isFinal : Bool)
    (st : LoopState) :
    (applyFlush res isFinal st).successCount +
      (applyFlush res isFinal st).failedCount =
      st.successCount + st.failedCount + st.batch.length := by
  cases res <;> simp [applyFlush] <;> omega

/-- The flush clears the pending batch in both outcomes. -/
theorem applyFlush_batch (res : Option String) (isFinal : Bool)
    (st : LoopState) : (applyFlush res isFinal st).batch = [] := by
  cases res <;> rfl


/-- The conditional flush at the end of a loop step preserves the balance
between the tokenized-row counter and the outcome counters plus the
pending batch. -/
theorem conserve_flush_if (c : Prop) [Decidable c] (res : Option String)
    (st2 : LoopState)
    (h : st2.totalRows = st2.successCount + st2.failedCount + st2.batch.length) :
    (if c then applyFlush res false st2 else st2).totalRows =
      (if c then applyFlush res false st2 else st2).successCount +
      (if c then applyFlush res false st2 else st2).failedCount +
      (if c then applyFlush res false st2 else st2).batch.length := by
  split
  · have h1 := applyFlush_totalRows res false st2
    have h2 := applyFlush_counts res false st2
    have h3 := applyFlush_batch res false st2
    rw [h1, h3]
    simp only [List.length_nil]
    omega
  · exact h

/-- A loop step on a decoded row preserves the balance between the
tokenized-row counter and the outcome counters plus the pending batch. -/
theorem stepEvent_ok_conserve (u : ℕ → Option String) (today : Date)
    (st : LoopState) (r : HistoricalDataRow)
    (h : st.totalRows = st.successCount + st.failedCount + st.batch.length) :
    (stepEvent u today st (.ok r)).totalRows =
      (stepEvent u today st (.ok r)).successCount +
        (stepEvent u today st (.ok r)).failedCount +
        (stepEvent u today st (.ok r)).batch.length := by
  cases hv : validateCSVRow today r with
  | some msg => simp [stepEvent, hv]; omega
  | none =>
      simp only [stepEvent, hv]
      apply conserve_flush_if
      simp
      omega

/-- Folding the loop step over a stream of successfully decoded rows
preserves the counter balance, from any balanced state. -/
theorem foldl_conserve (u : ℕ → Option String) (today : Date) :
    ∀ (evs : List RowEvent) (st : LoopState),
      (∀ ev ∈ evs, ∃ r, ev = RowEvent.ok r) →
      st.totalRows = st.successCount + st.failedCount + st.batch.length →
      (evs.foldl (stepEvent u today) st).totalRows =
        (evs.foldl (stepEvent u today) st).successCount +
          (evs.foldl (stepEvent u today) st).failedCount +
          (evs.foldl (stepEvent u today) st).batch.length := by
  intro evs
  induction evs with
  | nil => intro st _ h; simpa using h
  | cons ev evs ih =>
      intro st hok h
      obtain ⟨r, rfl⟩ := hok ev (List.mem_cons_self ev evs)
      exact ih (stepEvent u today st (.ok r))
        (fun e he => hok e (List.mem_cons_of_mem _ he))
        (stepEvent_ok_conserve u today st r h)

/-- The loop, started from the initial state, is balanced when the data
lines all decode successfully. -/
theorem runLoop_conserve (u : ℕ → Option String) (today : Date)
    (evs : List RowEvent)
    (hok : ∀ ev ∈ evs, ∃ r, ev = RowEvent.ok r) :
    (runLoop u today evs).totalRows =
      (runLoop u today evs).successCount +
        (runLoop u today evs).failedCount +
        (runLoop u today evs).batch.length :=
  foldl_conserve u today evs initState hok rfl

/-- After the final flush the pending batch is accounted for, so the
tokenized-row counter equals the sum of the outcome counters. -/
theorem uploadFinalState_conserve (u : ℕ → Option String) (today : Date)
    (evs : List RowEvent)
    (hok : ∀ ev ∈ evs, ∃ r, ev = RowEvent.ok r) :
    (uploadFinalState u today evs).totalRows =
      (uploadFinalState u today evs).successCount +
        (uploadFinalState u today evs).failedCount := by
  have hmain := runLoop_conserve u today evs hok
  unfold uploadFinalState
  by_cases hb : (runLoop u today evs).batch.isEmpty = true
  · rw [if_pos hb]
    rw [List.isEmpty_iff] at hb
    rw [hb] at hmain
    simpa using hmain
  · rw [if_neg hb]
    have h1 := applyFlush_totalRows (u (runLoop u today evs).callIdx) true
      (runLoop u today evs)
    have h2 := applyFlush_counts (u (runLoop u today evs).callIdx) true
      (runLoop u today evs)
    omega

/-- C1. For an input stream whose data lines all decode successfully, the
report returned by UploadCSV after the final flush satisfies
total_rows = success_count + failed_count, whatever the number of rows
failing business validation and whatever batch upserts fail. -/
theorem c1_total_rows_balance (upsert : ℕ → Option String) (today : Date)
    (hdr : List String) (evs : List RowEvent) (fileSize : ℤ)
    (hok : ∀ ev ∈ evs, ∃ r, ev = RowEvent.ok r)
    (rep : CSVUploadResponse)
    (hrep : (UploadCSV upsert today hdr evs fileSize).report = some rep) :
    rep.totalRows = rep.successCount + rep.failedCount := by
  unfold UploadCSV at hrep
  cases hh : ParseHeader hdr with
  | error e => rw [hh] at hrep; simp at hrep
  | ok v =>
      rw [hh] at hrep
      simp only [Option.some.injEq] at hrep
      rw [← hrep]
      exact uploadFinalState_conserve upsert today evs hok

/-- Witness for C1 at a concrete input: one valid row and a failing
upsert oracle. -/
theorem c1_total_rows_balance_witness :
    (mkReport (uploadFinalState (fun _ => some "db down") sampleToday
        [RowEvent.ok sampleRow]) 42).totalRows =
      (mkReport (uploadFinalState (fun _ => some "db down") sampleToday
          [RowEvent.ok sampleRow]) 42).successCount +
        (mkReport (uploadFinalState (fun _ => some "db down") sampleToday
            [RowEvent.ok sampleRow]) 42).failedCount :=
  c1_total_rows_balance (fun _ => some "db down") sampleToday stdHeader
    [RowEvent.ok sampleRow] 42
    (by
      intro ev hev
      rw [List.mem_singleton] at hev
      exact ⟨sampleRow, hev⟩)
    _ rfl

/-- C2 counterexample: a non-EOF reader failure in the middle of the
stream does not abort ingestion. UploadCSV returns a report (no fatal
error); the stream error is merely accumulated in the error list and
counted as one failed row, and the rows after it are still processed. -/
theorem c2_counterexample :
    (UploadCSV (fun _ => none) sampleToday stdHeader
        [RowEvent.ok sampleRow,
          RowEvent.readErr "read tcp: connection reset by peer",
          RowEvent.ok sampleRow] 7).fatal = none
    ∧ ((UploadCSV (fun _ => none) sampleToday stdHeader
        [RowEvent.ok sampleRow,
          RowEvent.readErr "read tcp: connection reset by peer",
          RowEvent.ok sampleRow] 7).report.map CSVUploadResponse.failedCount)
        = some 1
    ∧ ((UploadCSV (fun _ => none) sampleToday stdHeader
        [RowEvent.ok sampleRow,
          RowEvent.readErr "read tcp: connection reset by peer",
          RowEvent.ok sampleRow] 7).report.map CSVUploadResponse.errors)
        = some ["read tcp: connection reset by peer"]
    ∧ ((UploadCSV (fun _ => none) sampleToday stdHeader
        [RowEvent.ok sampleRow,
          RowEvent.readErr "read tcp: connection reset by peer",
          RowEvent.ok sampleRow] 7).report.map CSVUploadResponse.successCount)
        = some 2 := by
  refine ⟨rfl, rfl, rfl, rfl⟩

/-- C2 amended. A non-EOF error returned by ParseRow, including an
underlying reader failure, is handled as a recoverable row error: the
loop appends it to the error list, increments failed_count and
continues; once the header has parsed, UploadCSV always produces a
report and never a fatal error, and a fatal error implies a header
failure. -/
theorem c2_read_error_recoverable (u : ℕ → Option String) (today : Date) :
    (∀ (st : LoopState) (m : String),
      stepEvent u today st (.readErr m) =
        { st with errors := st.errors ++ [m],
                  failedCount := st.failedCount + 1 })
    ∧ (∀ (hdr : List String) (evs : List RowEvent) (fs : ℤ),
        (∃ v, ParseHeader hdr = Except.ok v) →
        (UploadCSV u today hdr evs fs).fatal = none
          ∧ ((UploadCSV u today hdr evs fs).report).isSome = true)
    ∧ (∀ (hdr : List String) (evs : List RowEvent) (fs : ℤ),
        (UploadCSV u today hdr evs fs).fatal ≠ none →
        ∃ e, ParseHeader hdr = Except.error e) := by
  refine ⟨fun st m => rfl, ?_, ?_⟩
  · intro hdr evs fs h
    obtain ⟨v, hv⟩ := h
    unfold UploadCSV
    rw [hv]
    exact ⟨rfl, rfl⟩
  · intro hdr evs fs h
    cases hh : ParseHeader hdr with
    | error e => exact ⟨e, rfl⟩
    | ok v =>
        exfalso
        apply h
        unfold UploadCSV
        rw [hh]

/-- Witness for C2 at a concrete input: with a valid header and a reader
failure event, the call is not fatal and a report is produced. -/
theorem c2_read_error_recoverable_witness :
    (UploadCSV (fun _ => none) sampleToday stdHeader
        [RowEvent.readErr "unexpected EOF"] 3).fatal = none
    ∧ ((UploadCSV (fun _ => none) sampleToday stdHeader
        [RowEvent.readErr "unexpected EOF"] 3).report).isSome = true :=
  (c2_read_error_recoverable (fun _ => none) sampleToday).2.1 stdHeader
    [RowEvent.readErr "unexpected EOF"] 3 ⟨stdHeader, rfl⟩

/-- A row violating both strict positivity (open and low are zero) and
the future-date rule, while satisfying the three ordering checks. -/
def rowMixed : HistoricalDataRow :=
  ⟨"AAPL", ⟨2099, 1, 1⟩, ⟨0, 0⟩, ⟨1, 0⟩, ⟨0, 0⟩, ⟨1, 0⟩, 0⟩

/-- C3 counterexample: the source validator checks the future-date rule
before strict positivity, so on a row violating both it reports the
future date, while the order claimed (positivity before date) would
report the positivity violation. -/
theorem c3_counterexample :
    validateCSVRow sampleToday rowMixed ≠ validateSpecOrder sampleToday rowMixed
    ∧ validateCSVRow sampleToday rowMixed = some (futureDateMsg rowMixed)
    ∧ validateSpecOrder sampleToday rowMixed = some positiveMsg := by
  refine ⟨?_, rfl, rfl⟩
  decide

/-- C3 amended. The validator applies the five invariants in the order
low ≤ high, low ≤ open ≤ high, low ≤ close ≤ high, date ≤ today, strict
positivity — not with positivity before the date check — and returns on
the first violation in that order. -/
theorem c3_validator_order (today : Date) (row : HistoricalDataRow) :
    (decLt row.High row.Low = true →
      validateCSVRow today row = some (highLowMsg row))
    ∧ (decLt row.High row.Low = false →
        (decLt row.Open row.Low || decLt row.High row.Open) = true →
        validateCSVRow today row = some (openRangeMsg row))
    ∧ (decLt row.High row.Low = false →
        (decLt row.Open row.Low || decLt row.High row.Open) = false →
        (decLt row.Close row.Low || decLt row.High row.Close) = true →
        validateCSVRow today row = some (closeRangeMsg row))
    ∧ (decLt row.High row.Low = false →
        (decLt row.Open row.Low || decLt row.High row.Open) = false →
        (decLt row.Close row.Low || decLt row.High row.Close) = false →
        dateAfter row.RowDate today = true →
        validateCSVRow today row = some (futureDateMsg row))
    ∧ (decLt row.High row.Low = false →
        (decLt row.Open row.Low || decLt row.High row.Open) = false →
        (decLt row.Close row.Low || decLt row.High row.Close) = false →
        dateAfter row.RowDate today = false →
        (decNonpos row.Open || decNonpos row.High || decNonpos row.Low ||
          decNonpos row.Close) = true →
        validateCSVRow today row = some positiveMsg)
    ∧ (decLt row.High row.Low = false →
        (decLt row.Open row.Low || decLt row.High row.Open) = false →
        (decLt row.Close row.Low || decLt row.High row.Close) = false →
        dateAfter row.RowDate today = false →
        (decNonpos row.Open || decNonpos row.High || decNonpos row.Low ||
          decNonpos row.Close) = false →
        validateCSVRow today row = none) := by
  refine ⟨?_, ?_, ?_, ?_, ?_, ?_⟩ <;>
    intros <;> simp [validateCSVRow, *]

/-- A row whose only violation is the future date. -/
def rowFuture : HistoricalDataRow :=
  ⟨"AAPL", ⟨2099, 1, 1⟩, ⟨10, 0⟩, ⟨12, 0⟩, ⟨9, 0⟩, ⟨11, 0⟩, 0⟩

/-- Witness for C3 at a concrete input: on a row passing the three
ordering checks and violating the future-date rule, the validator
reports the future date. -/
theorem c3_validator_order_witness :
    validateCSVRow sampleToday rowFuture = some (futureDateMsg rowFuture) :=
  (c3_validator_order sampleToday rowFuture).2.2.2.1 (by decide) (by decide)
    (by decide) (by decide)

/-- The flush records the flushed batch as one BulkCreate call. -/
theorem applyFlush_calls (res : Option String) (isFinal : Bool)
    (st : LoopState) :
    (applyFlush res isFinal st).calls = st.calls ++ [st.batch] := by
  cases res <;> rfl

/-- Folding the loop step over a stream of valid decoded rows performs
one in-loop flush per batchSize rows and leaves the remainder pending. -/
theorem foldl_batch_count (u : ℕ → Option String) (today : Date) :
    ∀ (evs : List RowEvent) (st : LoopState),
      (∀ ev ∈ evs, ∃ r, ev = RowEvent.ok r ∧ validateCSVRow today r = none) →
      st.batch.length < batchSize →
      ((evs.foldl (stepEvent u today) st).calls.length =
          st.calls.length + (st.batch.length + evs.length) / batchSize
        ∧ (evs.foldl (stepEvent u today) st).batch.length =
            (st.batch.length + evs.length) % batchSize) := by
  intro evs
  induction evs with
  | nil =>
      intro st _ hlt
      simp only [List.foldl_nil, List.length_nil]
      simp only [batchSize] at hlt ⊢
      refine ⟨?_, ?_⟩ <;> omega
  | cons ev evs ih =>
      intro st hok hlt
      obtain ⟨r, hev, hval⟩ := hok ev (List.mem_cons_self ev evs)
      subst hev
      rw [List.foldl_cons]
      have hok' : ∀ e ∈ evs, ∃ r, e = RowEvent.ok r ∧
          validateCSVRow today r = none :=
        fun e he => hok e (List.mem_cons_of_mem _ he)
      by_cases hb : batchSize ≤ st.batch.length + 1
      · have hcalls : (stepEvent u today st (.ok r)).calls.length =
            st.calls.length + 1 := by
          simp [stepEvent, hval, hb, applyFlush_calls]
        have hbatch : (stepEvent u today st (.ok r)).batch.length = 0 := by
          simp [stepEvent, hval, hb, applyFlush_batch]
        obtain ⟨ih1, ih2⟩ := ih (stepEvent u today st (.ok r)) hok'
          (by rw [hbatch]; simp [batchSize])
        rw [ih1, ih2, hcalls, hbatch]
        simp only [List.length_cons, batchSize] at hb hlt ⊢
        refine ⟨?_, ?_⟩ <;> omega
      · have hcalls : (stepEvent u today st (.ok r)).calls.length =
            st.calls.length := by
          simp [stepEvent, hval, hb]
        have hbatch : (stepEvent u today st (.ok r)).batch.length =
            st.batch.length + 1 := by
          simp [stepEvent, hval, hb]
        obtain ⟨ih1, ih2⟩ := ih (stepEvent u today st (.ok r)) hok'
          (by rw [hbatch]; simp only [batchSize] at hb ⊢; omega)
        rw [ih1, ih2, hcalls, hbatch]
        simp only [List.length_cons, batchSize] at hb hlt ⊢
        refine ⟨?_, ?_⟩ <;> omega

/-- The loop from the initial state flushes once per batchSize valid rows
and keeps the remainder pending. -/
theorem runLoop_calls_count (u : ℕ → Option String) (today : Date)
    (evs : List RowEvent)
    (hok : ∀ ev ∈ evs, ∃ r, ev = RowEvent.ok r ∧
      validateCSVRow today r = none) :
    (runLoop u today evs).calls.length = evs.length / batchSize
    ∧ (runLoop u today evs).batch.length = evs.length % batchSize := by
  have h := foldl_batch_count u today evs initState hok (by decide)
  simpa [runLoop, initState] using h

/-- C4. For exactly batchSize valid rows, UploadCSV performs exactly one
in-loop flush and no final flush; for batchSize - 1 valid rows it
performs no in-loop flush and exactly one final flush. -/
theorem c4_batch_flush_boundary (upsert : ℕ → Option String) (today : Date)
    (hdr : List String) (evs : List RowEvent) (fs : ℤ)
    (hhdr : ∃ v, ParseHeader hdr = Except.ok v)
    (hok : ∀ ev ∈ evs, ∃ r, ev = RowEvent.ok r ∧
      validateCSVRow today r = none) :
    (evs.length = batchSize →
      (UploadCSV upsert today hdr evs fs).loopCalls.length = 1
        ∧ (UploadCSV upsert today hdr evs fs).finalCall = none)
    ∧ (evs.length = batchSize - 1 →
      (UploadCSV upsert today hdr evs fs).loopCalls = []
        ∧ ((UploadCSV upsert today hdr evs fs).finalCall).isSome = true) := by
  obtain ⟨v, hv⟩ := hhdr
  obtain ⟨h1, h2⟩ := runLoop_calls_count upsert today evs hok
  simp only [UploadCSV, hv]
  constructor
  · intro hlen
    rw [hlen] at h1 h2
    have hb : (runLoop upsert today evs).batch.isEmpty = true := by
      rw [List.isEmpty_iff, ← List.length_eq_zero, h2]
      simp [batchSize]
    refine ⟨?_, ?_⟩
    · rw [h1]
      simp [batchSize]
    · rw [if_pos hb]
  · intro hlen
    rw [hlen] at h1 h2
    have hc : (runLoop upsert today evs).calls = [] := by
      rw [← List.length_eq_zero, h1]
      simp [batchSize]
    have hb : ¬ ((runLoop upsert today evs).batch.isEmpty = true) := by
      rw [List.isEmpty_iff]
      intro hE
      rw [hE] at h2
      simp [batchSize] at h2
    refine ⟨hc, ?_⟩
    rw [if_neg hb]
    rfl

/-- Witness for C4 at a concrete input: exactly batchSize valid rows give
one in-loop flush and no final flush. -/
theorem c4_batch_flush_boundary_witness :
    (UploadCSV (fun _ => none) sampleToday stdHeader
        (List.replicate batchSize (RowEvent.ok sampleRow)) 0).loopCalls.length = 1
    ∧ (UploadCSV (fun _ => none) sampleToday stdHeader
        (List.replicate batchSize (RowEvent.ok sampleRow)) 0).finalCall = none :=
  (c4_batch_flush_boundary (fun _ => none) sampleToday stdHeader
      (List.replicate batchSize (RowEvent.ok sampleRow)) 0
      ⟨stdHeader, rfl⟩
      (by
        intro ev hev
        have he := List.eq_of_mem_replicate hev
        exact ⟨sampleRow, he, by decide⟩)).1
    (by simp)

set_option maxRecDepth 40000 in
/-- C5 counterexample: with 150 accumulated errors the synthetic last
entry reads with a space after the ellipsis, so the literal
quoted by the claim does not occur. -/
theorem c5_counterexample :
    ((UploadCSV (fun _ => none) sampleToday stdHeader
        (List.replicate 150 (RowEvent.readErr "bad")) 0).report.map
          (fun rep => (rep.errors.length, rep.errors.getLast?)))
      = some (101, some "... and 50 more errors")
    ∧ ("... and 50 more errors" : String) ≠ "...and 50 more errors" := by
  refine ⟨by decide, by decide⟩

/-- C5 amended. Whenever the accumulated error list exceeds maxErrors
(100) entries, the report's error list is the first 100 accumulated
errors, in order, followed by one synthetic entry stating the number of
truncated errors and spelled with a space after the ellipsis
(for 150 errors: the string made of an ellipsis, a space, and the words
and 50 more errors); with 100 or fewer accumulated errors the list is
returned unchanged. -/
theorem c5_error_cap (upsert : ℕ → Option String) (today : Date)
    (hdr : List String) (evs : List RowEvent) (fs : ℤ)
    (rep : CSVUploadResponse)
    (hrep : (UploadCSV upsert today hdr evs fs).report = some rep) :
    (maxErrors < (uploadFinalState upsert today evs).errors.length →
      rep.errors =
        (uploadFinalState upsert today evs).errors.take maxErrors ++
          ["... and " ++
            toString ((uploadFinalState upsert today evs).errors.length -
              maxErrors) ++ " more errors"]
        ∧ rep.errors.length = maxErrors + 1)
    ∧ ((uploadFinalState upsert today evs).errors.length ≤ maxErrors →
        rep.errors = (uploadFinalState upsert today evs).errors) := by
  unfold UploadCSV at hrep
  cases hh : ParseHeader hdr with
  | error e => rw [hh] at hrep; simp at hrep
  | ok v =>
      rw [hh] at hrep
      simp only [Option.some.injEq] at hrep
      rw [← hrep]
      constructor
      · intro hgt
        constructor
        · show capErrors (uploadFinalState upsert today evs).errors = _
          unfold capErrors
          rw [if_pos hgt]
        · show (capErrors (uploadFinalState upsert today evs).errors).length =
            maxErrors + 1
          unfold capErrors
          rw [if_pos hgt]
          rw [List.length_append, List.length_take]
          simp only [List.length_singleton]
          omega
      · intro hle
        show capErrors (uploadFinalState upsert today evs).errors = _
        unfold capErrors
        rw [if_neg (by omega)]

set_option maxRecDepth 40000 in
/-- Witness for C5 at a concrete input: 150 reader errors leave 150
accumulated entries, and the returned list is the first 100 plus the
synthetic summary entry. -/
theorem c5_error_cap_witness :
    (mkReport (uploadFinalState (fun _ => none) sampleToday
        (List.replicate 150 (RowEvent.readErr "bad"))) 0).errors =
      (uploadFinalState (fun _ => none) sampleToday
          (List.replicate 150 (RowEvent.readErr "bad"))).errors.take maxErrors ++
        ["... and " ++
          toString ((uploadFinalState (fun _ => none) sampleToday
            (List.replicate 150 (RowEvent.readErr "bad"))).errors.length -
              maxErrors) ++ " more errors"] :=
  ((c5_error_cap (fun _ => none) sampleToday stdHeader
      (List.replicate 150 (RowEvent.readErr "bad")) 0 _ rfl).1
    (by decide)).1

/-- C6. The date parser tries the five formats in their fixed source
order (2006-01-02, 01/02/2006, 02-01-2006, 2006/01/02, 01-02-2006, the
Go layouts of YYYY-MM-DD, MM/DD/YYYY, DD-MM-YYYY, YYYY/MM/DD,
MM-DD-YYYY) and returns the result of the first format that matches, so
ambiguous inputs are resolved deterministically by list position; when no
format matches, the date parse fails and the row decoder reports the
error message enumerating the supported formats. -/
theorem c6_date_format_priority :
    (∀ (s : String) (i : ℕ) (hi : i < supportedFormats.length),
      (∀ (j : ℕ) (hj : j < supportedFormats.length), j < i →
        parseWithFormat (supportedFormats.get ⟨j, hj⟩) s = none) →
      (parseWithFormat (supportedFormats.get ⟨i, hi⟩) s).isSome = true →
      parseDate s = parseWithFormat (supportedFormats.get ⟨i, hi⟩) s)
    ∧ (∀ s : String, (∀ f ∈ supportedFormats, parseWithFormat f s = none) →
        parseDate s = none)
    ∧ dateFormatsMessage = "invalid date format, supported formats: " ++
        "2006-01-02, 01/02/2006, 02-01-2006, 2006/01/02, 01-02-2006"
    ∧ (∀ (hidx : String → ℕ) (record : List String) (line : ℕ),
        goTrim (upperAscii (record.getD (hidx "symbol") "")) ≠ "" →
        parseDate (goTrim (record.getD (hidx "date") "")) = none →
        ParseRow hidx record line =
          Except.error ⟨line, "date", goTrim (record.getD (hidx "date") ""),
            dateFormatsMessage⟩) := by
  refine ⟨?_, ?_, by decide, ?_⟩
  · intro s i hi h1 h2
    obtain ⟨d, hd⟩ := Option.isSome_iff_exists.mp h2
    have hi5 : i < 5 := by simpa [supportedFormats] using hi
    interval_cases i
    · have hd' : parseWithFormat DateFormat.ymdDash s = some d := hd
      show parseDate s = parseWithFormat DateFormat.ymdDash s
      simp only [parseDate, supportedFormats, List.findSome?, hd']
    · have e0 : parseWithFormat DateFormat.ymdDash s = none :=
        h1 0 (by decide) (by omega)
      have hd' : parseWithFormat DateFormat.mdySlash s = some d := hd
      show parseDate s = parseWithFormat DateFormat.mdySlash s
      simp only [parseDate, supportedFormats, List.findSome?, e0, hd']
    · have e0 : parseWithFormat DateFormat.ymdDash s = none :=
        h1 0 (by decide) (by omega)
      have e1 : parseWithFormat DateFormat.mdySlash s = none :=
        h1 1 (by decide) (by omega)
      have hd' : parseWithFormat DateFormat.dmyDash s = some d := hd
      show parseDate s = parseWithFormat DateFormat.dmyDash s
      simp only [parseDate, supportedFormats, List.findSome?, e0, e1, hd']
    · have e0 : parseWithFormat DateFormat.ymdDash s = none :=
        h1 0 (by decide) (by omega)
      have e1 : parseWithFormat DateFormat.mdySlash s = none :=
        h1 1 (by decide) (by omega)
      have e2 : parseWithFormat DateFormat.dmyDash s = none :=
        h1 2 (by decide) (by omega)
      have hd' : parseWithFormat DateFormat.ymdSlash s = some d := hd
      show parseDate s = parseWithFormat DateFormat.ymdSlash s
      simp only [parseDate, supportedFormats, List.findSome?, e0, e1, e2, hd']
    · have e0 : parseWithFormat DateFormat.ymdDash s = none :=
        h1 0 (by decide) (by omega)
      have e1 : parseWithFormat DateFormat.mdySlash s = none :=
        h1 1 (by decide) (by omega)
      have e2 : parseWithFormat DateFormat.dmyDash s = none :=
        h1 2 (by decide) (by omega)
      have e3 : parseWithFormat DateFormat.ymdSlash s = none :=
        h1 3 (by decide) (by omega)
      have hd' : parseWithFormat DateFormat.mdyDash s = some d := hd
      show parseDate s = parseWithFormat DateFormat.mdyDash s
      simp only [parseDate, supportedFormats, List.findSome?, e0, e1, e2, e3,
        hd']
  · intro s h
    have e0 := h DateFormat.ymdDash (by decide)
    have e1 := h DateFormat.mdySlash (by decide)
    have e2 := h DateFormat.dmyDash (by decide)
    have e3 := h DateFormat.ymdSlash (by decide)
    have e4 := h DateFormat.mdyDash (by decide)
    simp only [parseDate, supportedFormats, List.findSome?, e0, e1, e2, e3, e4]
  · intro hidx record line hsym hdate
    simp only [ParseRow]
    rw [if_neg hsym, hdate]

/-- Witness for C6 at a concrete ambiguous input: 03-04-2024 matches both
the DD-MM-YYYY and the MM-DD-YYYY layouts; the parser returns the
DD-MM-YYYY reading (April 3) because that layout comes first. -/
theorem c6_date_format_priority_witness :
    parseDate "03-04-2024" = parseWithFormat DateFormat.dmyDash "03-04-2024"
    ∧ parseWithFormat DateFormat.dmyDash "03-04-2024" = some ⟨2024, 4, 3⟩
    ∧ parseWithFormat DateFormat.mdyDash "03-04-2024" = some ⟨2024, 3, 4⟩ := by
  refine ⟨c6_date_format_priority.1 "03-04-2024" 2 (by decide) ?_ (by decide),
    by decide, by decide⟩
  intro j hj hlt
  interval_cases j
  · show parseWithFormat DateFormat.ymdDash "03-04-2024" = none
    decide
  · show parseWithFormat DateFormat.mdySlash "03-04-2024" = none
    decide

/-- C7. Header validation succeeds exactly when, after trimming and
lower-casing every cell, all seven required names are present, whatever
the order and whatever extra columns appear; and on a missing name
UploadCSV fails before processing any row, with no BulkCreate call. -/
theorem c7_header_validation :
    (∀ cells : List String,
      (∃ v, ParseHeader cells = Except.ok v) ↔
        ∀ r ∈ requiredHeaders, r ∈ cells.map normalizeName)
    ∧ (∀ (cells : List String) (e : String) (u : ℕ → Option String)
        (today : Date) (evs : List RowEvent) (fs : ℤ),
        ParseHeader cells = Except.error e →
        UploadCSV u today cells evs fs =
          ⟨some ("invalid CSV header: " ++ e), none, [], none⟩) := by
  constructor
  · intro cells
    unfold ParseHeader
    cases hf : requiredHeaders.find?
        (fun r => !((cells.map normalizeName).contains r)) with
    | some m =>
        simp only [hf]
        constructor
        · intro h
          obtain ⟨v, hv⟩ := h
          simp at hv
        · intro hall
          exfalso
          have hm := List.mem_of_find?_eq_some hf
          have hp := List.find?_some hf
          simp only [Bool.not_eq_true'] at hp
          have hc := List.elem_eq_true_of_mem (hall m hm)
          rw [show ((cells.map normalizeName).contains m) =
            ((cells.map normalizeName).elem m) from rfl] at hp
          rw [hc] at hp
          exact absurd hp (by decide)
    | none =>
        simp only [hf]
        constructor
        · intro _ r hr
          rw [List.find?_eq_none] at hf
          have hr2 := hf r hr
          have hc : (cells.map normalizeName).contains r = true := by
            cases hcc : (cells.map normalizeName).contains r
            · exact absurd (by rw [hcc]; rfl) hr2
            · rfl
          exact List.mem_of_elem_eq_true hc
        · intro _
          exact ⟨cells.map normalizeName, rfl⟩
  · intro cells e u today evs fs h
    unfold UploadCSV
    rw [h]

/-- Witness for C7 at a concrete input: a header missing volume makes
UploadCSV fail before any row, with no BulkCreate call recorded. -/
theorem c7_header_validation_witness :
    UploadCSV (fun _ => none) sampleToday
        ["symbol", "date", "open", "high", "low", "close"]
        [RowEvent.ok sampleRow] 9 =
      ⟨some ("invalid CSV header: " ++ "missing required header: volume"),
        none, [], none⟩ :=
  c7_header_validation.2 ["symbol", "date", "open", "high", "low", "close"]
    "missing required header: volume" (fun _ => none) sampleToday
    [RowEvent.ok sampleRow] 9 rfl

/-- C8. A failing flush appends exactly one synthetic error entry (one
per batch, not one per row), counts the whole batch as failed, leaves
the success counter untouched, clears the pending batch whatever the
outcome, and the final flush uses a distinct final-batch label. -/
theorem c8_flush_failure_accounting (st : LoopState) (e : String) :
    (applyFlush (some e) false st).errors =
        st.errors ++ ["batch insert error: " ++ e]
    ∧ (applyFlush (some e) true st).errors =
        st.errors ++ ["final batch insert error: " ++ e]
    ∧ (applyFlush (some e) false st).failedCount =
        st.failedCount + st.batch.length
    ∧ (applyFlush (some e) true st).failedCount =
        st.failedCount + st.batch.length
    ∧ (∀ res : Option String, (applyFlush res false st).batch = []
        ∧ (applyFlush res true st).batch = [])
    ∧ (applyFlush (some e) false st).successCount = st.successCount
    ∧ ("final batch insert error: " ++ e) ≠ ("batch insert error: " ++ e) := by
  refine ⟨rfl, rfl, rfl, rfl,
    fun res => ⟨applyFlush_batch res false st, applyFlush_batch res true st⟩,
    rfl, ?_⟩
  intro h
  have hlen := congrArg String.length h
  rw [String.length_append, String.length_append] at hlen
  have h26 : ("final batch insert error: " : String).length = 26 := rfl
  have h20 : ("batch insert error: " : String).length = 20 := rfl
  omega

/-- A loop step keeps the pending batch strictly below batchSize and
keeps every recorded in-loop call at exactly batchSize rows. -/
theorem stepEvent_batch_invariant (u : ℕ → Option String) (today : Date)
    (st : LoopState) (ev : RowEvent)
    (h1 : st.batch.length < batchSize)
    (h2 : ∀ b ∈ st.calls, b.length = batchSize) :
    (stepEvent u today st ev).batch.length < batchSize
    ∧ ∀ b ∈ (stepEvent u today st ev).calls, b.length = batchSize := by
  cases ev with
  | readErr m => exact ⟨h1, h2⟩
  | parseErr m => exact ⟨h1, h2⟩
  | ok r =>
      cases hv : validateCSVRow today r with
      | some msg =>
          simp only [stepEvent, hv]
          exact ⟨h1, h2⟩
      | none =>
          by_cases hb : batchSize ≤ st.batch.length + 1
          · have hlen : st.batch.length + 1 = batchSize := by omega
            constructor
            · have hbe : (stepEvent u today st (.ok r)).batch = [] := by
                simp [stepEvent, hv, hb, applyFlush_batch]
              rw [hbe]
              simp [batchSize]
            · intro b hbmem
              have hc : (stepEvent u today st (.ok r)).calls =
                  st.calls ++ [st.batch ++ [r]] := by
                simp [stepEvent, hv, hb, applyFlush_calls]
              rw [hc, List.mem_append] at hbmem
              cases hbmem with
              | inl hmem => exact h2 b hmem
              | inr hmem =>
                  rw [List.mem_singleton] at hmem
                  subst hmem
                  rw [List.length_append]
                  simp only [List.length_singleton]
                  omega
          · constructor
            · have hbe : (stepEvent u today st (.ok r)).batch =
                  st.batch ++ [r] := by
                simp [stepEvent, hv, hb]
              rw [hbe, List.length_append]
              simp only [List.length_singleton]
              omega
            · have hc : (stepEvent u today st (.ok r)).calls = st.calls := by
                simp [stepEvent, hv, hb]
              rw [hc]
              exact h2

/-- The loop invariant of stepEvent_batch_invariant holds along any
event stream. -/
theorem foldl_batch_invariant (u : ℕ → Option String) (today : Date) :
    ∀ (evs : List RowEvent) (st : LoopState),
      st.batch.length < batchSize →
      (∀ b ∈ st.calls, b.length = batchSize) →
      ((evs.foldl (stepEvent u today) st).batch.length < batchSize
        ∧ ∀ b ∈ (evs.foldl (stepEvent u today) st).calls,
            b.length = batchSize) := by
  intro evs
  induction evs with
  | nil => intro st hlt hcalls; exact ⟨hlt, hcalls⟩
  | cons ev evs ih =>
      intro st hlt hcalls
      rw [List.foldl_cons]
      obtain ⟨hlt2, hcalls2⟩ := stepEvent_batch_invariant u today st ev hlt hcalls
      exact ih (stepEvent u today st ev) hlt2 hcalls2

/-- C9. Every batch UploadCSV passes to BulkCreate is nonempty and holds
at most batchSize (1000) rows, and every in-loop call holds exactly
batchSize rows. -/
theorem c9_upsert_call_sizes (upsert : ℕ → Option String) (today : Date)
    (hdr : List String) (evs : List RowEvent) (fs : ℤ) :
    (∀ b ∈ (UploadCSV upsert today hdr evs fs).loopCalls,
      b.length = batchSize ∧ b ≠ [])
    ∧ (∀ b, (UploadCSV upsert today hdr evs fs).finalCall = some b →
        b ≠ [] ∧ b.length ≤ batchSize) := by
  cases hh : ParseHeader hdr with
  | error e =>
      simp only [UploadCSV, hh]
      constructor
      · intro b hb
        simp at hb
      · intro b hb
        simp at hb
  | ok v =>
      obtain ⟨hlt, hcalls⟩ := foldl_batch_invariant upsert today evs initState
        (by decide) (by intro b hb; simp [initState] at hb)
      simp only [UploadCSV, hh]
      constructor
      · intro b hb
        have hble := hcalls b hb
        refine ⟨hble, ?_⟩
        intro hnil
        rw [hnil] at hble
        simp [batchSize] at hble
      · intro b hb
        by_cases hE : (runLoop upsert today evs).batch.isEmpty = true
        · rw [if_pos hE] at hb
          exact absurd hb (by simp)
        · rw [if_neg hE] at hb
          rw [Option.some.injEq] at hb
          subst hb
          constructor
          · intro hnil
            apply hE
            rw [List.isEmpty_iff]
            exact hnil
          · exact le_of_lt hlt

/-- Witness for C9 at a concrete input: one valid row yields a nonempty
final batch within the size bound. -/
theorem c9_upsert_call_sizes_witness :
    ([sampleRow] : List HistoricalDataRow) ≠ []
    ∧ ([sampleRow] : List HistoricalDataRow).length ≤ batchSize :=
  (c9_upsert_call_sizes (fun _ => none) sampleToday stdHeader
      [RowEvent.ok sampleRow] 0).2 [sampleRow] (by decide)

/-- C10. The decimal parser removes every comma and every dollar sign
occurring anywhere in the trimmed input before numeric parsing (so the
noisy input 1,2$3 parses to 123), and the integer parser removes every
comma anywhere; empty integer input means zero. -/
theorem c10_noise_stripping :
    (∀ s : String, goTrim s ≠ "" →
      parseFloat s = parseFloatCore (removeAll '$' (removeAll ',' (goTrim s))))
    ∧ (∀ s : String, goTrim s ≠ "" →
        parseUint s = goParseUint (removeAll ',' (goTrim s)))
    ∧ parseFloat "1,2$3" = some ⟨123, 0⟩
    ∧ parseUint "1,,3" = some 13
    ∧ parseUint "" = some 0 := by
  refine ⟨?_, ?_, by decide, by decide, by decide⟩
  · intro s h
    simp [parseFloat, h]
  · intro s h
    simp [parseUint, h]

/-- Witness for C10 at a concrete input: the noisy decimal 1,2$3 goes
through trimming and noise stripping before numeric parsing. -/
theorem c10_noise_stripping_witness :
    parseFloat "1,2$3" =
      parseFloatCore (removeAll '$' (removeAll ',' (goTrim "1,2$3"))) :=
  c10_noise_stripping.1 "1,2$3" (by decide)

/-- Witness for C8 at a concrete state: a failing in-loop flush of the
initial state appends exactly the one synthetic entry. -/
theorem c8_flush_failure_accounting_witness :
    (applyFlush (some "db down") false initState).errors =
      initState.errors ++ ["batch insert error: " ++ "db down"]
    ∧ ("final batch insert error: " ++ "db down") ≠
        ("batch insert error: " ++ "db down") :=
  ⟨(c8_flush_failure_accounting initState "db down").1,
    (c8_flush_failure_accounting initState "db down").2.2.2.2.2.2⟩
